import Mathlib

/-!
Verification of the DebtGuardian core: the program slicer (block extraction,
line counting, class/method unit extraction with metric derivation), the
debt detectors (label normalization and confidence scoring), the detection
coordinator (dispatch, confidence filtering, summaries), the localization
agent, and the repository-level result aggregation.

Python strings are modelled as `List Char`; machine floats that only ever
hold small decimal constants and exact count ratios are modelled as `ℚ`.
The two external engines the slicer calls — the structural Java parser and
the regular-expression searcher used to find declaration headers — are
modelled as oracle parameters (a parse result and a match-position oracle);
every theorem quantifies over them, so no property below depends on what
those engines return.
-/

namespace DebtGuardian

/-- Opening brace character (written via its code point). -/
def lbrace : Char := Char.ofNat 123

/-- Closing brace character (written via its code point). -/
def rbrace : Char := Char.ofNat 125

/-- Python `str.strip()` whitespace: space, tab, newline, carriage return,
vertical tab, form feed. -/
def isPySpace (c : Char) : Bool :=
  c = ' ' || c = '\t' || c = '\n' || c = '\r' ||
  c = Char.ofNat 11 || c = Char.ofNat 12

/-- Python `str.strip()`: drop leading and trailing whitespace. -/
def strip (s : List Char) : List Char :=
  ((s.dropWhile isPySpace).reverse.dropWhile isPySpace).reverse

/-- Python `str.split('\n')`. -/
def splitLines (s : List Char) : List (List Char) :=
  s.splitOn '\n'

/-- Python `pat in s`: substring containment. -/
def containsSub : List Char → List Char → Bool
  | pat, [] => pat.isEmpty
  | pat, c :: rest => pat.isPrefixOf (c :: rest) || containsSub pat rest

/-- The suffix of `s` just after the first occurrence of `pat`,
or `none` when `pat` does not occur in `s`. -/
def afterSub : List Char → List Char → Option (List Char)
  | pat, [] => if pat.isEmpty then some [] else none
  | pat, c :: rest =>
    if pat.isPrefixOf (c :: rest) then some ((c :: rest).drop pat.length)
    else afterSub pat rest

/-- `ProgramSlicerAgent._count_loc`, the per-line loop: `inML` is the
`in_multiline_comment` flag carried across lines. -/
def countLocLines : List (List Char) → Bool → Nat
  | [], _ => 0
  | line :: rest, inML =>
    let stripped := strip line
    let inML1 := if containsSub ['/', '*'] stripped then true else inML
    if containsSub ['*', '/'] stripped then countLocLines rest false
    else if inML1 then countLocLines rest inML1
    else if stripped ≠ [] && !(['/', '/'].isPrefixOf stripped) then
      1 + countLocLines rest inML1
    else countLocLines rest inML1

/-- `ProgramSlicerAgent._count_loc`: count lines excluding blanks,
line comments and multi-line comment spans. -/
def count_loc (code : List Char) : Nat :=
  countLocLines (splitLines code) false

/-- Index of the first occurrence of `c` in `s` at position `start` or
later — Python `s.find(c, start)` (with `none` for `-1`). -/
def findCharFrom (s : List Char) (c : Char) (start : Nat) : Option Nat :=
  ((s.drop start).findIdx? (fun x => x = c)).map (· + start)

/-- The brace-balancing scan loop of `ProgramSlicerAgent._extract_block`:
walks the remaining characters (first list argument) carrying the absolute
index `i`, the brace counter `count`, the `in_string`/`in_char` span flags
and the `escape` flag; returns the absolute index at which the counter
returns to zero, or `none` if the end of input is reached first. -/
def scanBlock : List Char → Nat → Int → Bool → Bool → Bool → Option Nat
  | [], _, _, _, _, _ => none
  | c :: rest, i, count, inStr, inCh, esc =>
    if esc then scanBlock rest (i + 1) count inStr inCh false
    else if c = '\\' then scanBlock rest (i + 1) count inStr inCh true
    else
      let inStr' := if c = '"' && !inCh then !inStr else inStr
      let inCh' := if c = '\'' && !inStr then !inCh else inCh
      if !inStr' && !inCh' then
        if c = lbrace then scanBlock rest (i + 1) (count + 1) inStr' inCh' false
        else if c = rbrace then
          if count = 1 then some i
          else scanBlock rest (i + 1) (count - 1) inStr' inCh' false
        else scanBlock rest (i + 1) count inStr' inCh' false
      else scanBlock rest (i + 1) count inStr' inCh' false

/-- `ProgramSlicerAgent._extract_block`: find the first `{` at or after
`startPos`, scan to its matching `}` (string/char literal aware), and
return the slice `source[startPos : i+1]`. -/
def extract_block (source : List Char) (startPos : Nat) : Option (List Char) :=
  match findCharFrom source lbrace startPos with
  | none => none
  | some bracePos =>
    match scanBlock (source.drop bracePos) bracePos 0 false false false with
    | none => none
    | some i => some ((source.take (i + 1)).drop startPos)

/-- Helper for `_strip_comments`: the suffix of `s` after the first
block-comment close token, or `none` when no close token occurs. -/
def afterBlockClose : List Char → Option (List Char)
  | [] => none
  | c :: rest =>
    if c = '*' ∧ rest.head? = some '/' then some rest.tail
    else afterBlockClose rest

theorem afterBlockClose_length_le :
    ∀ s t, afterBlockClose s = some t → t.length ≤ s.length := by
  intro s
  induction s with
  | nil => intro t h; simp [afterBlockClose] at h
  | cons c rest ih =>
    intro t h
    rw [afterBlockClose] at h
    split at h
    · cases h
      have : rest.tail.length ≤ rest.length := by cases rest <;> simp
      simp only [List.length_cons]
      omega
    · have := ih _ h
      simp only [List.length_cons]
      omega

/-- `ProgramSlicerAgent._strip_comments`, first substitution:
`re.sub(r'/\*.*?\*/', '', code, flags=re.S)` — each block comment is
removed from its opening token to the first close token after it; an
opening token with no close token after it is left in place. -/
def stripBlockComments : List Char → List Char
  | [] => []
  | c :: rest =>
    if c = '/' ∧ rest.head? = some '*' then
      match h2 : afterBlockClose rest.tail with
      | some rest' => stripBlockComments rest'
      | none => c :: rest
    else c :: stripBlockComments rest
termination_by s => s.length
decreasing_by
  · have hlen := afterBlockClose_length_le _ _ h2
    have htail : rest.tail.length ≤ rest.length := by cases rest <;> simp
    simp only [List.length_cons]
    omega
  · simp only [List.length_cons]
    omega

/-- Drop the rest of the current line — helper for the line-comment
substitution (the `.` in `//.*` does not match a newline, so the newline
itself is kept). -/
def dropToNewline : List Char → List Char
  | [] => []
  | c :: rest => if c = '\n' then c :: rest else dropToNewline rest

theorem dropToNewline_length_le : ∀ s, (dropToNewline s).length ≤ s.length := by
  intro s
  induction s with
  | nil => simp [dropToNewline]
  | cons c rest ih =>
    rw [dropToNewline]
    split
    · exact Nat.le_refl _
    · simp only [List.length_cons]
      omega

/-- `ProgramSlicerAgent._strip_comments`, second substitution:
`re.sub(r'//.*', '', code)`. -/
def stripLineComments : List Char → List Char
  | [] => []
  | c :: rest =>
    if c = '/' ∧ rest.head? = some '/' then
      stripLineComments (dropToNewline rest.tail)
    else c :: stripLineComments rest
termination_by s => s.length
decreasing_by
  · have h1 := dropToNewline_length_le rest.tail
    have htail : rest.tail.length ≤ rest.length := by cases rest <;> simp
    simp only [List.length_cons]
    omega
  · simp only [List.length_cons]
    omega

/-- `ProgramSlicerAgent._strip_comments`. -/
def strip_comments (code : List Char) : List Char :=
  stripLineComments (stripBlockComments code)

/-- Word character for the regex `\w` and `\b` classes. -/
def isWordChar (c : Char) : Bool :=
  ('a' ≤ c && c ≤ 'z') || ('A' ≤ c && c ≤ 'Z') || ('0' ≤ c && c ≤ '9') || c = '_'

/-- Count occurrences of `kw` as a whole word (`\bkw\b`): positions where
`kw` occurs and the characters on both sides (when present) are not word
characters.  `prev` is the character preceding the current position. -/
def countWordFrom (kw : List Char) (prev : Option Char) : List Char → Nat
  | [] => 0
  | c :: rest =>
    let boundaryBefore := match prev with
      | none => true
      | some p => !isWordChar p
    let boundaryAfter := match ((c :: rest).drop kw.length).head? with
      | none => true
      | some q => !isWordChar q
    (if kw.isPrefixOf (c :: rest) && boundaryBefore && boundaryAfter then 1 else 0)
      + countWordFrom kw (some c) rest

/-- `len(re.findall(r'\b' + kw + r'\b', code))`. -/
def countWord (kw : List Char) (code : List Char) : Nat :=
  countWordFrom kw none code

/-- Python `code.count(pat)`: non-overlapping occurrences, left to right. -/
def countSub (pat : List Char) : List Char → Nat
  | [] => 0
  | c :: rest =>
    if h : pat ≠ [] ∧ pat.isPrefixOf (c :: rest) then
      1 + countSub pat ((c :: rest).drop pat.length)
    else countSub pat rest
termination_by s => s.length
decreasing_by
  · have hp : 1 ≤ pat.length := by
      cases pat with
      | nil => exact absurd rfl h.1
      | cons _ _ => simp
    simp only [List.length_drop, List.length_cons]
    omega
  · simp only [List.length_cons]
    omega

/-- `ProgramSlicerAgent._estimate_complexity`: 1 plus whole-word decision
keywords plus `&&`/`||`/`?` occurrences. -/
def estimate_complexity (code : List Char) : Nat :=
  1 + countWord "if".data code + countWord "else".data code
    + countWord "for".data code + countWord "while".data code
    + countWord "case".data code + countWord "catch".data code
    + countSub "&&".data code + countSub "||".data code
    + countSub "?".data code

/-- Length of the leading run of word characters. -/
def wordRun : List Char → Nat
  | [] => 0
  | c :: rest => if isWordChar c then 1 + wordRun rest else 0

theorem wordRun_le_length : ∀ s, wordRun s ≤ s.length := by
  intro s
  induction s with
  | nil => simp [wordRun]
  | cons c rest ih =>
    rw [wordRun]
    split
    · simp only [List.length_cons]
      omega
    · exact Nat.zero_le _

/-- The scan loop of `ProgramSlicerAgent._count_external_calls`:
`len(re.findall(r'\w+\.\w+\(', text))` — at each position try the
(deterministic, since `\w`, `.` and `(` are disjoint) match; on success
skip past it, otherwise advance one character. -/
def extCallScan : List Char → Nat
  | [] => 0
  | c :: rest =>
    if h : 0 < wordRun (c :: rest)
        ∧ ((c :: rest).drop (wordRun (c :: rest))).head? = some '.'
        ∧ 0 < wordRun ((c :: rest).drop (wordRun (c :: rest))).tail
        ∧ ((((c :: rest).drop (wordRun (c :: rest))).tail).drop
            (wordRun ((c :: rest).drop (wordRun (c :: rest))).tail)).head? = some '(' then
      1 + extCallScan (((((c :: rest).drop (wordRun (c :: rest))).tail).drop
            (wordRun ((c :: rest).drop (wordRun (c :: rest))).tail)).tail)
    else extCallScan rest
termination_by s => s.length
decreasing_by
  · have h1 := h.1
    simp only [List.length_tail, List.length_drop, List.length_cons]
    omega
  · simp only [List.length_cons]
    omega

/-- `ProgramSlicerAgent._count_external_calls`: count `obj.method(`
patterns after stripping comments. -/
def count_external_calls (code : List Char) : Nat :=
  extCallScan (strip_comments code)

/-- A unit's metrics dictionary: every key is optional because the slicer
builds different subsets (`{}` when `extract_metrics` is off, `{'loc': …}`
on the regex fallback path, the full set on the AST path). -/
structure Metrics where
  loc : Option Nat := none
  method_count : Option Nat := none
  field_count : Option Nat := none
  is_abstract : Option Bool := none
  getter_setter_ratio : Option ℚ := none
  parameter_count : Option Nat := none
  cyclomatic_complexity : Option Nat := none
  external_calls : Option Nat := none
deriving DecidableEq

/-- A method unit as produced by the slicer. -/
structure MethodUnit where
  name : List Char
  code : List Char
  parent_class : Option (List Char)
  metrics : Metrics
deriving DecidableEq

/-- A class unit as produced by the slicer, owning its nested methods. -/
structure ClassUnit where
  name : List Char
  code : List Char
  methods : List MethodUnit
  metrics : Metrics
deriving DecidableEq

/-- A `javalang.tree.MethodDeclaration` as far as the slicer reads it. -/
structure MethodNode where
  name : List Char
  parameters : Nat
deriving DecidableEq

/-- A `javalang.tree.ClassDeclaration` as far as the slicer reads it. -/
structure ClassNode where
  name : List Char
  methods : List MethodNode
  fields : Nat
  modifiers : List (List Char)
deriving DecidableEq

/-- The regular-expression engine used by the slicer, as an oracle:
`classHeaderPos source name` / `methodHeaderPos source name` are the
`match.start()` of `re.search` for the class/method declaration-header
patterns (`none` when the search fails), and `classMatches` /
`methodMatches` are the `(name, match.start())` streams of `re.finditer`
over the fallback declaration patterns. -/
structure RegexOracle where
  classHeaderPos : List Char → List Char → Option Nat
  methodHeaderPos : List Char → List Char → Option Nat
  classMatches : List Char → List (List Char × Nat)
  methodMatches : List Char → List (List Char × Nat)

/-- The slicer configuration (`config.AGENT_CONFIGS['program_slicer']`
with its defaults already applied). -/
structure SlicerConfig where
  extract_metrics : Bool := true
  min_method_loc : Nat := 3
  max_class_loc : Nat := 1000
deriving DecidableEq

/-- `ProgramSlicerAgent._extract_class_code_by_name`: header-pattern
search (oracle) followed by block extraction. -/
def extract_class_code_by_name (o : RegexOracle) (source : List Char)
    (className : List Char) : Option (List Char) :=
  (o.classHeaderPos source className).bind (extract_block source)

/-- `ProgramSlicerAgent._extract_method_code_by_name`: header-pattern
search (oracle) followed by block extraction. -/
def extract_method_code_by_name (o : RegexOracle) (source : List Char)
    (methodName : List Char) : Option (List Char) :=
  (o.methodHeaderPos source methodName).bind (extract_block source)

/-- `ProgramSlicerAgent._extract_method_from_ast`: extract the method's
code from the surrounding text and attach metrics (an empty dict when
`extract_metrics` is off). -/
def extract_method_from_ast (cfg : SlicerConfig) (o : RegexOracle)
    (node : MethodNode) (source : List Char) (parentClass : List Char) :
    Option MethodUnit :=
  match extract_method_code_by_name o source node.name with
  | none => none
  | some methodCode =>
    if methodCode = [] then none
    else
      let loc := count_loc methodCode
      some
        { name := node.name
          code := methodCode
          parent_class := some parentClass
          metrics :=
            if cfg.extract_metrics then
              { loc := some loc
                parameter_count := some node.parameters
                cyclomatic_complexity := some (estimate_complexity methodCode)
                external_calls := some (count_external_calls methodCode) }
            else {} }

/-- `ProgramSlicerAgent._count_getters_setters`: retained methods whose
name starts with `get`/`set`/`is` and whose metrics loc is at most 3. -/
def count_getters_setters (methods : List MethodUnit) : Nat :=
  methods.countP (fun m =>
    ("get".data.isPrefixOf m.name || "set".data.isPrefixOf m.name ||
     "is".data.isPrefixOf m.name) &&
    decide (m.metrics.loc.getD 0 ≤ 3))

/-- `ProgramSlicerAgent._extract_class_from_ast`: extract the class body,
discard it when its loc exceeds `max_class_loc`, extract and filter the
nested methods (keeping those whose metrics loc reaches `min_method_loc`),
and derive the class metrics. -/
def extract_class_from_ast (cfg : SlicerConfig) (o : RegexOracle)
    (node : ClassNode) (source : List Char) : Option ClassUnit :=
  match extract_class_code_by_name o source node.name with
  | none => none
  | some classCode =>
    if classCode = [] then none
    else
      let loc := count_loc classCode
      if cfg.max_class_loc < loc then none
      else
        let methods := node.methods.filterMap (fun mn =>
          (extract_method_from_ast cfg o mn classCode node.name).bind
            (fun mi =>
              if cfg.min_method_loc ≤ mi.metrics.loc.getD 0 then some mi
              else none))
        let method_count := node.methods.length
        let field_count := node.fields
        some
          { name := node.name
            code := classCode
            methods := methods
            metrics :=
              if cfg.extract_metrics then
                { loc := some loc
                  method_count := some method_count
                  field_count := some field_count
                  is_abstract := some (node.modifiers.contains "abstract".data)
                  getter_setter_ratio := some
                    (if 0 < method_count then
                      (count_getters_setters methods : ℚ) / (method_count : ℚ)
                    else 0) }
              else {} }

/-- `ProgramSlicerAgent._extract_methods_regex` (fallback path): walk the
`finditer` matches, skip the bare accessor names `get`/`set`/`is`, extract
each block, and keep units whose loc reaches `min_method_loc`. -/
def extract_methods_regex (cfg : SlicerConfig) (o : RegexOracle)
    (source : List Char) : List MethodUnit :=
  (o.methodMatches source).filterMap (fun m =>
    if m.1 = "get".data ∨ m.1 = "set".data ∨ m.1 = "is".data then none
    else
      match extract_block source m.2 with
      | none => none
      | some methodCode =>
        if methodCode = [] then none
        else
          let loc := count_loc methodCode
          if cfg.min_method_loc ≤ loc then
            some
              { name := m.1
                code := methodCode
                parent_class := none
                metrics := if cfg.extract_metrics then { loc := some loc } else {} }
          else none)

/-- `ProgramSlicerAgent._extract_classes_regex` (fallback path): walk the
`finditer` matches, extract each block, keep classes whose loc does not
exceed `max_class_loc`, and slice their methods with the regex fallback. -/
def extract_classes_regex (cfg : SlicerConfig) (o : RegexOracle)
    (source : List Char) : List ClassUnit :=
  (o.classMatches source).filterMap (fun m =>
    match extract_block source m.2 with
    | none => none
    | some classCode =>
      if classCode = [] then none
      else
        let loc := count_loc classCode
        if loc ≤ cfg.max_class_loc then
          let classMethods := extract_methods_regex cfg o classCode
          let metrics0 : Metrics :=
            if cfg.extract_metrics then { loc := some loc } else {}
          let metrics1 :=
            if classMethods ≠ [] then
              { metrics0 with method_count := some classMethods.length }
            else metrics0
          some
            { name := m.1
              code := classCode
              methods := classMethods
              metrics := metrics1 }
        else none)

/-- The result dictionary of `ProgramSlicerAgent.slice_code`. -/
structure SliceResult where
  classes : List ClassUnit
  methods : List MethodUnit
  total_loc : Nat
deriving DecidableEq

/-- `ProgramSlicerAgent.slice_code`: the structural parse result is an
oracle input (`some nodes` = the `javalang` parse succeeded and yielded
these class declarations; `none` = it raised, triggering the regex
fallback).  On the primary path only `classes` is populated; on the
fallback path both `classes` and the standalone `methods` are. -/
def slice_code (cfg : SlicerConfig) (o : RegexOracle)
    (parsed : Option (List ClassNode)) (source : List Char) : SliceResult :=
  match parsed with
  | some nodes =>
    { classes := nodes.filterMap (fun n => extract_class_from_ast cfg o n source)
      methods := []
      total_loc := count_loc source }
  | none =>
    { classes := extract_classes_regex cfg o source
      methods := extract_methods_regex cfg o source
      total_loc := count_loc source }

/-- `ClassDebtDetector._normalize_label`: `re.search(r'[0-2]', text)` —
the first character in `{0,1,2}`, else `UNKNOWN`. -/
def classNormalizeLabel (text : List Char) : List Char :=
  match text.find? (fun c => c = '0' || c = '1' || c = '2') with
  | some c => [c]
  | none => "UNKNOWN".data

/-- `MethodDebtDetector._normalize_label`: `'3'`, then `'4'`, then `'0'`
containment, else `UNKNOWN`. -/
def methodNormalizeLabel (text : List Char) : List Char :=
  if text.contains '3' then ['3']
  else if text.contains '4' then ['4']
  else if text.contains '0' then ['0']
  else "UNKNOWN".data

/-- `ClassDebtDetector._label_to_debt_type`. -/
def classLabelToDebtType (label : List Char) : Option (List Char) :=
  if label = "0".data then some "No Smell".data
  else if label = "1".data then some "Blob".data
  else if label = "2".data then some "Data Class".data
  else none

/-- `MethodDebtDetector._label_to_debt_type`. -/
def methodLabelToDebtType (label : List Char) : Option (List Char) :=
  if label = "0".data then some "No Smell".data
  else if label = "3".data then some "Feature Envy".data
  else if label = "4".data then some "Long Method".data
  else none

/-- `ClassDebtDetector._calculate_confidence`. -/
def classCalculateConfidence (label : List Char) (m : Metrics) : ℚ :=
  if label = "0".data then 9/10
  else if label = "1".data then
    let loc := m.loc.getD 0
    let methodCount := m.method_count.getD 0
    if 500 < loc ∨ 20 < methodCount then 9/10
    else if 300 < loc ∨ 15 < methodCount then 3/4
    else 3/5
  else if label = "2".data then
    let ratio := m.getter_setter_ratio.getD 0
    if 4/5 < ratio then 9/10
    else if 3/5 < ratio then 3/4
    else 3/5
  else 1/2

/-- `MethodDebtDetector._calculate_confidence`. -/
def methodCalculateConfidence (label : List Char) (m : Metrics) : ℚ :=
  if label = "0".data then 9/10
  else if label = "3".data then
    let externalCalls := m.external_calls.getD 0
    if 7 ≤ externalCalls then 9/10
    else if 5 ≤ externalCalls then 3/4
    else 3/5
  else if label = "4".data then
    let loc := m.loc.getD 0
    let complexity := m.cyclomatic_complexity.getD 0
    if 25 ≤ loc ∨ 15 ≤ complexity then 9/10
    else if 15 ≤ loc ∨ 10 ≤ complexity then 3/4
    else 3/5
  else 1/2

/-- A detection result dictionary.  The detector's no-response branch
builds a dictionary without the `granularity`, `metrics` and
`raw_response` keys, so those are optional here. -/
structure DetectionResult where
  rtype : List Char
  name : List Char
  label : List Char
  debt_type : Option (List Char)
  confidence : ℚ
  metrics : Option Metrics := none
  raw_response : Option (List Char) := none
  granularity : Option (List Char) := none
  error : Option (List Char) := none
deriving DecidableEq

/-- The LLM backing a detector, as an oracle: the `content` of
`agent.generate_reply`, with `none` for a missing/empty response. -/
def DetectorResponse (α : Type) := α → Option (List Char)

/-- `ClassDebtDetector.detect`: on a response, normalize the label and
derive the confidence; with no response, return the
`UNKNOWN`/confidence-0 error result instead of raising. -/
def classDetect (resp : DetectorResponse ClassUnit) (u : ClassUnit) :
    DetectionResult :=
  match resp u with
  | some content =>
    let rawLabel := strip content
    let label := classNormalizeLabel rawLabel
    { rtype := "class".data
      name := u.name
      label := label
      debt_type := classLabelToDebtType label
      confidence := classCalculateConfidence label u.metrics
      metrics := some u.metrics
      raw_response := some rawLabel
      granularity := some "class".data }
  | none =>
    { rtype := "class".data
      name := u.name
      label := "UNKNOWN".data
      debt_type := none
      confidence := 0
      error := some "No response from agent".data }

/-- `MethodDebtDetector.detect`. -/
def methodDetect (resp : DetectorResponse MethodUnit) (u : MethodUnit) :
    DetectionResult :=
  match resp u with
  | some content =>
    let rawLabel := strip content
    let label := methodNormalizeLabel rawLabel
    { rtype := "method".data
      name := u.name
      label := label
      debt_type := methodLabelToDebtType label
      confidence := methodCalculateConfidence label u.metrics
      metrics := some u.metrics
      raw_response := some rawLabel
      granularity := some "method".data }
  | none =>
    { rtype := "method".data
      name := u.name
      label := "UNKNOWN".data
      debt_type := none
      confidence := 0
      error := some "No response from agent".data }

/-- `DebtDetectionCoordinator._detect_class_debts` (sequential path):
detect every class, then drop the `'0'` ("No Smell") results. -/
def detect_class_debts (resp : DetectorResponse ClassUnit)
    (classes : List ClassUnit) : List DetectionResult :=
  (classes.map (classDetect resp)).filter (fun r => r.label ≠ "0".data)

/-- `DebtDetectionCoordinator._detect_method_debts` (sequential path). -/
def detect_method_debts (resp : DetectorResponse MethodUnit)
    (methods : List MethodUnit) : List DetectionResult :=
  (methods.map (methodDetect resp)).filter (fun r => r.label ≠ "0".data)

/-- Bump `summary[k] = summary.get(k, 0) + 1` on an insertion-ordered
association list (Python dict semantics). -/
def bumpKey : List (List Char × Nat) → List Char → List (List Char × Nat)
  | [], k => [(k, 1)]
  | (k0, v) :: rest, k =>
    if k0 = k then (k0, v + 1) :: rest else (k0, v) :: bumpKey rest k

/-- The summary dictionary built by
`DebtDetectionCoordinator._generate_summary`. -/
structure Summary where
  total_debts : Nat
  by_type : List (List Char × Nat)
  by_granularity_class : Nat
  by_granularity_method : Nat
  high_confidence : Nat
deriving DecidableEq

/-- One loop step of `_generate_summary`. -/
def summaryStep (s : Summary) (d : DetectionResult) : Summary :=
  let s1 := { s with by_type := bumpKey s.by_type (d.debt_type.getD "Unknown".data) }
  let g := d.granularity.getD "unknown".data
  let s2 :=
    if g = "class".data then
      { s1 with by_granularity_class := s1.by_granularity_class + 1 }
    else if g = "method".data then
      { s1 with by_granularity_method := s1.by_granularity_method + 1 }
    else s1
  if 4/5 ≤ d.confidence then
    { s2 with high_confidence := s2.high_confidence + 1 }
  else s2

/-- `DebtDetectionCoordinator._generate_summary`. -/
def generate_summary (detections : List DetectionResult) : Summary :=
  detections.foldl summaryStep
    { total_debts := detections.length
      by_type := []
      by_granularity_class := 0
      by_granularity_method := 0
      high_confidence := 0 }

/-- The coordinator settings read from `config['coordinator']`
(`parallel_detection` is off by default; only the sequential dispatch is
modelled). -/
structure CoordinatorConfig where
  min_confidence : ℚ := 1/2
deriving DecidableEq

/-- The pre-filter detection list built by
`DebtDetectionCoordinator.analyze_file`: class batch, then the standalone
method batch, then the methods nested in each class (a detector set to
`none` is a disabled agent). -/
def all_detections (cresp : Option (DetectorResponse ClassUnit))
    (mresp : Option (DetectorResponse MethodUnit))
    (classes : List ClassUnit) (methods : List MethodUnit) :
    List DetectionResult :=
  (match cresp with
   | some resp => if classes ≠ [] then detect_class_debts resp classes else []
   | none => []) ++
  (match mresp with
   | some resp => if methods ≠ [] then detect_method_debts resp methods else []
   | none => []) ++
  (match mresp with
   | some resp =>
     (classes.map (fun c =>
       if c.methods ≠ [] then detect_method_debts resp c.methods else [])).flatten
   | none => [])

/-- The result of `DebtDetectionCoordinator.analyze_file` (without the
optional post-processing pass, which needs the raw file content). -/
structure FileAnalysis where
  total_detections : Nat
  filtered_detections : Nat
  debts : List DetectionResult
  summary : Summary
deriving DecidableEq

/-- `DebtDetectionCoordinator.analyze_file`: dispatch all units, filter by
the confidence threshold, and summarize. -/
def analyze_file (cfg : CoordinatorConfig)
    (cresp : Option (DetectorResponse ClassUnit))
    (mresp : Option (DetectorResponse MethodUnit))
    (classes : List ClassUnit) (methods : List MethodUnit) : FileAnalysis :=
  let allDetections := all_detections cresp mresp classes methods
  let filtered := allDetections.filter (fun d => cfg.min_confidence ≤ d.confidence)
  { total_detections := allDetections.length
    filtered_detections := filtered.length
    debts := filtered
    summary := generate_summary filtered }

/-- The `location` field attached by `LocalizationAgent.localize`:
an exact range, an approximate range (`approximate: True`), or one of the
two explicit error markers. -/
inductive Location where
  | exact (startLine endLine : Nat)
  | approx (startLine endLine : Nat)
  | missingInput
  | notLocalized
deriving DecidableEq

/-- Regex `\s+` followed by `name` (for `rf'class\s+{name}'`): at least one
whitespace character, then the literal name. -/
def wsThenName (name : List Char) : List Char → Bool
  | [] => false
  | c :: rest => isPySpace c && (name.isPrefixOf rest || wsThenName name rest)

/-- `re.search(rf'class\s+{re.escape(name)}', line)` as a Boolean. -/
def classHeaderLineMatch (name : List Char) : List Char → Bool
  | [] => false
  | c :: rest =>
    ("class".data.isPrefixOf (c :: rest) && wsThenName name ((c :: rest).drop 5))
    || classHeaderLineMatch name rest

/-- Regex `\s*\(` at the head of the text. -/
def wsStarParen : List Char → Bool
  | [] => false
  | c :: rest => c = '(' || (isPySpace c && wsStarParen rest)

/-- Literal `name` then `\s*\(` at the head of the text. -/
def nameWsParen (name : List Char) (s : List Char) : Bool :=
  name.isPrefixOf s && wsStarParen (s.drop name.length)

/-- Regex `\s+` then `name\s*\(` at the head of the text. -/
def wsPlusNameParen (name : List Char) : List Char → Bool
  | [] => false
  | c :: rest => isPySpace c && (nameWsParen name rest || wsPlusNameParen name rest)

/-- `re.search(rf'\s+{re.escape(name)}\s*\(', line)` as a Boolean. -/
def methodHeaderLineMatch (name : List Char) : List Char → Bool
  | [] => false
  | c :: rest =>
    wsPlusNameParen name (c :: rest) || methodHeaderLineMatch name rest

/-- `LocalizationAgent.localize`: (a) the first file line whose stripped
text contains the snippet's stripped first line sets an exact range;
(b) otherwise a declaration-header pattern search sets an approximate
range; (c) otherwise the explicit `Could not localize code` marker.
Empty snippet or source short-circuits to the `Missing code or source
file` marker. -/
def localize (isClass : Bool) (name : List Char) (codeSnippet : List Char)
    (sourceContent : List Char) : Location :=
  if codeSnippet = [] ∨ sourceContent = [] then .missingInput
  else
    let lines := splitLines sourceContent
    let snippetLines := splitLines (strip codeSnippet)
    let firstLine := strip (snippetLines.headD [])
    match lines.findIdx? (fun line => containsSub firstLine (strip line)) with
    | some i => .exact (i + 1) (i + 1 + snippetLines.length - 1)
    | none =>
      match lines.findIdx? (fun line =>
          if isClass then classHeaderLineMatch name line
          else methodHeaderLineMatch name line) with
      | some i => .approx (i + 1) (i + 1 + snippetLines.length)
      | none => .notLocalized

/-- One file entry fed to `DebtGuardian._aggregate_results`: its `status`
and its (already filtered) `debts` list. -/
structure GuardianFileResult where
  status : List Char
  debts : List DetectionResult
deriving DecidableEq

/-- The aggregate dictionary of `DebtGuardian._aggregate_results`. -/
structure AggregateSummary where
  total_debts : Nat
  by_type : List (List Char × Nat)
  by_granularity_class : Nat
  by_granularity_method : Nat
  high_confidence_debts : Nat
  files_with_debts : Nat
  average_debts_per_file : ℚ
deriving DecidableEq

/-- The zero-initialised aggregate of `DebtGuardian._aggregate_results`. -/
def aggregateInit : AggregateSummary :=
  { total_debts := 0
    by_type := []
    by_granularity_class := 0
    by_granularity_method := 0
    high_confidence_debts := 0
    files_with_debts := 0
    average_debts_per_file := 0 }

/-- The inner per-debt loop of `DebtGuardian._aggregate_results`. -/
def aggregateDebtStep (a : AggregateSummary) (d : DetectionResult) :
    AggregateSummary :=
  let a1 := { a with by_type := bumpKey a.by_type (d.debt_type.getD "Unknown".data) }
  let g := d.granularity.getD "unknown".data
  let a2 :=
    if g = "class".data then
      { a1 with by_granularity_class := a1.by_granularity_class + 1 }
    else if g = "method".data then
      { a1 with by_granularity_method := a1.by_granularity_method + 1 }
    else a1
  if 4/5 ≤ d.confidence then
    { a2 with high_confidence_debts := a2.high_confidence_debts + 1 }
  else a2

/-- The outer per-file loop of `DebtGuardian._aggregate_results`: results
whose status is not `completed` are skipped entirely; the second component
is the `valid_files` counter. -/
def aggregateFileStep (acc : AggregateSummary × Nat) (r : GuardianFileResult) :
    AggregateSummary × Nat :=
  if r.status ≠ "completed".data then acc
  else
    let a := acc.1
    let a1 :=
      if r.debts ≠ [] then { a with files_with_debts := a.files_with_debts + 1 }
      else a
    let a2 := { a1 with total_debts := a1.total_debts + r.debts.length }
    (r.debts.foldl aggregateDebtStep a2, acc.2 + 1)

/-- `DebtGuardian._aggregate_results`: fold the files, then set
`average_debts_per_file` only when at least one file was valid. -/
def aggregate_results (fileResults : List GuardianFileResult) :
    AggregateSummary :=
  let acc := fileResults.foldl aggregateFileStep (aggregateInit, 0)
  if 0 < acc.2 then
    { acc.1 with average_debts_per_file := (acc.1.total_debts : ℚ) / (acc.2 : ℚ) }
  else acc.1

/-- A detector configuration dictionary (`config.AGENT_CONFIGS[…]`):
every key the constructors read, each possibly absent. -/
structure AgentConfig where
  model : Option (List Char) := none
  base_url : Option (List Char) := none
  api_key : Option (List Char) := none
  shot : Option (List Char) := none
  temperature : Option ℚ := none
  timeout : Option ℚ := none
  enabled : Option Bool := none
deriving DecidableEq

/-- The Python exception an embedded constructor can raise. -/
inductive PyError where
  | attributeError (attr : List Char)
deriving DecidableEq

/-- The `llm_config` dictionary a detector builds. -/
structure LLMConfig where
  model : List Char
  base_url : List Char
  api_key : List Char
  temperature : ℚ
  timeout : ℚ
deriving DecidableEq

/-- A successfully constructed `ClassDebtDetector`. -/
structure ClassDetectorState where
  shot_type : List Char
  llm_config : LLMConfig
deriving DecidableEq

/-- A successfully constructed `MethodDebtDetector`. -/
structure MethodDetectorState where
  shot_type : List Char
  llm_config : LLMConfig
deriving DecidableEq

/-- `ClassDebtDetector.__init__`: the constructor assigns `model`,
`base_url`, `api_key`, `shot_type` and `temperature`, but the line
`self.timeout = agent_config.get('timeout', 300)` is commented out in the
source, so when `llm_config` is built the read of `self.timeout` finds no
such attribute and raises `AttributeError`. -/
def classDebtDetectorInit (cfg : AgentConfig) :
    Except PyError ClassDetectorState :=
  let model := cfg.model.getD "codestral:22b".data
  let base_url := cfg.base_url.getD "http://localhost:11434".data
  let api_key := cfg.api_key.getD "ollama".data
  let shot_type := cfg.shot.getD "few".data
  let temperature := cfg.temperature.getD (1/10)
  let timeoutAttr : Option ℚ := none
  match timeoutAttr with
  | none => .error (.attributeError "timeout".data)
  | some t =>
    .ok { shot_type := shot_type
          llm_config :=
            { model := model
              base_url := base_url
              api_key := api_key
              temperature := temperature
              timeout := t } }

/-- `MethodDebtDetector.__init__`: here `self.timeout` is assigned before
`llm_config` is built, so construction succeeds. -/
def methodDebtDetectorInit (cfg : AgentConfig) : MethodDetectorState :=
  { shot_type := cfg.shot.getD "few".data
    llm_config :=
      { model := cfg.model.getD "qwen2.5-coder:7b".data
        base_url := cfg.base_url.getD "http://localhost:11434".data
        api_key := cfg.api_key.getD "ollama".data
        temperature := cfg.temperature.getD (1/10)
        timeout := cfg.timeout.getD 300 } }

/-- The `config.AGENT_CONFIGS` sections `DebtDetectionCoordinator`
reads when initializing agents. -/
structure AgentConfigs where
  class_detector : AgentConfig := {}
  method_detector : AgentConfig := {}
  localization_enabled : Option Bool := none
  explanation_enabled : Option Bool := none
  fix_suggestion_enabled : Option Bool := none
deriving DecidableEq

/-- The agents held by a successfully initialized coordinator. -/
structure CoordinatorAgents where
  class_detector : Option ClassDetectorState
  method_detector : Option MethodDetectorState
  localizer_enabled : Bool
  explainer_enabled : Bool
  fix_suggester_enabled : Bool
deriving DecidableEq

/-- `DebtDetectionCoordinator._initialize_agents`: each agent is
constructed when its `enabled` flag (default `True`; `False` by default
only for the fix suggester) is set; an exception from a constructor
propagates and aborts coordinator initialization. -/
def initialize_agents (cfgs : AgentConfigs) : Except PyError CoordinatorAgents := do
  let classDet ←
    if cfgs.class_detector.enabled.getD true then
      (classDebtDetectorInit cfgs.class_detector).map some
    else .ok none
  let methodDet :=
    if cfgs.method_detector.enabled.getD true then
      some (methodDebtDetectorInit cfgs.method_detector)
    else none
  .ok { class_detector := classDet
        method_detector := methodDet
        localizer_enabled := cfgs.localization_enabled.getD true
        explainer_enabled := cfgs.explanation_enabled.getD true
        fix_suggester_enabled := cfgs.fix_suggestion_enabled.getD false }

/-! ### Claim-side reference definitions

Each `claimed_…` definition below follows the words of one claim of the
specification, to be compared with the corresponding definition translated
from the source; each `amended_…` definition follows the amended wording
of a corrected claim. -/

/-- The block-extraction scan exactly as claim C3 words it: the depth
counter toggles on `{`/`}` whenever the scan is outside string and
character literal spans, and an escape flag is tracked only inside a
literal span (so an escaped quote does not terminate the span).  Outside
any span a backslash has no effect. -/
def claimScanBlock : List Char → Nat → Int → Bool → Bool → Bool → Option Nat
  | [], _, _, _, _, _ => none
  | c :: rest, i, count, inStr, inCh, esc =>
    if inStr then
      if esc then claimScanBlock rest (i + 1) count true inCh false
      else if c = '\\' then claimScanBlock rest (i + 1) count true inCh true
      else if c = '"' then claimScanBlock rest (i + 1) count false inCh false
      else claimScanBlock rest (i + 1) count true inCh false
    else if inCh then
      if esc then claimScanBlock rest (i + 1) count inStr true false
      else if c = '\\' then claimScanBlock rest (i + 1) count inStr true true
      else if c = '\'' then claimScanBlock rest (i + 1) count inStr false false
      else claimScanBlock rest (i + 1) count inStr true false
    else
      if c = '"' then claimScanBlock rest (i + 1) count true inCh false
      else if c = '\'' then claimScanBlock rest (i + 1) count inStr true false
      else if c = lbrace then claimScanBlock rest (i + 1) (count + 1) inStr inCh false
      else if c = rbrace then
        if count = 1 then some i
        else claimScanBlock rest (i + 1) (count - 1) inStr inCh false
      else claimScanBlock rest (i + 1) count inStr inCh false

/-- Block extraction as claim C3 words it (same wrapper as
`extract_block`, with the claim's scan). -/
def claimed_extract_block (source : List Char) (startPos : Nat) :
    Option (List Char) :=
  match findCharFrom source lbrace startPos with
  | none => none
  | some bracePos =>
    match claimScanBlock (source.drop bracePos) bracePos 0 false false false with
    | none => none
    | some i => some ((source.take (i + 1)).drop startPos)

/-- The block-extraction scan as the amended claim words it: the escape
flag is tracked globally — a backslash anywhere (inside or outside a
literal span) sets it, and the following character is skipped entirely,
for span toggling and depth counting alike. -/
def amendedScanBlock : List Char → Nat → Int → Bool → Bool → Bool → Option Nat
  | [], _, _, _, _, _ => none
  | c :: rest, i, count, inStr, inCh, esc =>
    if esc then amendedScanBlock rest (i + 1) count inStr inCh false
    else if c = '\\' then amendedScanBlock rest (i + 1) count inStr inCh true
    else if inStr then
      if c = '"' then amendedScanBlock rest (i + 1) count false inCh false
      else amendedScanBlock rest (i + 1) count true inCh false
    else if inCh then
      if c = '\'' then amendedScanBlock rest (i + 1) count inStr false false
      else amendedScanBlock rest (i + 1) count inStr true false
    else
      if c = '"' then amendedScanBlock rest (i + 1) count true inCh false
      else if c = '\'' then amendedScanBlock rest (i + 1) count inStr true false
      else if c = lbrace then amendedScanBlock rest (i + 1) (count + 1) inStr inCh false
      else if c = rbrace then
        if count = 1 then some i
        else amendedScanBlock rest (i + 1) (count - 1) inStr inCh false
      else amendedScanBlock rest (i + 1) count inStr inCh false

/-- Block extraction as the amended claim words it. -/
def amended_extract_block (source : List Char) (startPos : Nat) :
    Option (List Char) :=
  match findCharFrom source lbrace startPos with
  | none => none
  | some bracePos =>
    match amendedScanBlock (source.drop bracePos) bracePos 0 false false false with
    | none => none
    | some i => some ((source.take (i + 1)).drop startPos)

/-- The line-count rule exactly as claim C6 words it: a line is excluded
when it is blank after trimming, fully consumed by a line comment, or
inside a multi-line comment span opened by a block-comment start token and
closed by its matching end token (the closing line excluded too).  An end
token with no open span has no effect. -/
def claimCountLocLines : List (List Char) → Bool → Nat
  | [], _ => 0
  | line :: rest, inML =>
    let stripped := strip line
    if inML then
      if containsSub ['*', '/'] stripped then claimCountLocLines rest false
      else claimCountLocLines rest true
    else if containsSub ['/', '*'] stripped then
      match afterSub ['/', '*'] stripped with
      | some tailPart =>
        if containsSub ['*', '/'] tailPart then claimCountLocLines rest false
        else claimCountLocLines rest true
      | none => claimCountLocLines rest true
    else if stripped ≠ [] && !(['/', '/'].isPrefixOf stripped) then
      1 + claimCountLocLines rest false
    else claimCountLocLines rest false

/-- The line count as claim C6 words it. -/
def claimed_count_loc (code : List Char) : Nat :=
  claimCountLocLines (splitLines code) false

/-- The line-count rule as the amended claim words it: comment-span
tracking is token-containment based — a line containing the block-comment
start token sets the in-comment state (this check precedes the end-token
check), and a line containing the end token anywhere is excluded and
clears the state even when no span is open. -/
def amendedCountLocLines : List (List Char) → Bool → Nat
  | [], _ => 0
  | line :: rest, inML =>
    let stripped := strip line
    let opened := inML || containsSub ['/', '*'] stripped
    if containsSub ['*', '/'] stripped then amendedCountLocLines rest false
    else if opened then amendedCountLocLines rest true
    else if stripped ≠ [] && !(['/', '/'].isPrefixOf stripped) then
      1 + amendedCountLocLines rest false
    else amendedCountLocLines rest false

/-- The line count as the amended claim words it. -/
def amended_count_loc (code : List Char) : Nat :=
  amendedCountLocLines (splitLines code) false

/-- The getter/setter ratio as claim C5 words it: trivial accessors
(name beginning with `get`/`set`/`is`, own loc at most 3) counted over ALL
directly declared methods of the class, divided by the declared method
count (0 when there are no methods). -/
def claimed_getter_setter_ratio (cfg : SlicerConfig) (o : RegexOracle)
    (node : ClassNode) (classCode : List Char) : ℚ :=
  let methodCount := node.methods.length
  if methodCount = 0 then 0
  else
    (node.methods.countP (fun mn =>
      ("get".data.isPrefixOf mn.name || "set".data.isPrefixOf mn.name ||
       "is".data.isPrefixOf mn.name) &&
      (match extract_method_from_ast cfg o mn classCode node.name with
       | some mi => decide (count_loc mi.code ≤ 3)
       | none => false)) : ℚ) / (methodCount : ℚ)

/-- Localization as claim C8 words it — strategy (a) checks whether the
raw file line contains the unit's trimmed first code line as a
substring. -/
def claimed_localize (isClass : Bool) (name : List Char)
    (codeSnippet : List Char) (sourceContent : List Char) : Location :=
  if codeSnippet = [] ∨ sourceContent = [] then .missingInput
  else
    let lines := splitLines sourceContent
    let snippetLines := splitLines (strip codeSnippet)
    let firstLine := strip (snippetLines.headD [])
    match lines.findIdx? (fun line => containsSub firstLine line) with
    | some i => .exact (i + 1) (i + 1 + snippetLines.length - 1)
    | none =>
      match lines.findIdx? (fun line =>
          if isClass then classHeaderLineMatch name line
          else methodHeaderLineMatch name line) with
      | some i => .approx (i + 1) (i + 1 + snippetLines.length)
      | none => .notLocalized

/-- The confidence table of §4.4, as claim C4 words it: a single lookup
keyed by the label (the label vocabularies of the two granularities only
share `0` and `UNKNOWN`, on which the rows agree). -/
def confidenceTable (label : List Char) (m : Metrics) : ℚ :=
  if label = "0".data then 9/10
  else if label = "1".data then
    if 500 < m.loc.getD 0 ∨ 20 < m.method_count.getD 0 then 9/10
    else if 300 < m.loc.getD 0 ∨ 15 < m.method_count.getD 0 then 3/4
    else 3/5
  else if label = "2".data then
    if 4/5 < m.getter_setter_ratio.getD 0 then 9/10
    else if 3/5 < m.getter_setter_ratio.getD 0 then 3/4
    else 3/5
  else if label = "3".data then
    if 7 ≤ m.external_calls.getD 0 then 9/10
    else if 5 ≤ m.external_calls.getD 0 then 3/4
    else 3/5
  else if label = "4".data then
    if 25 ≤ m.loc.getD 0 ∨ 15 ≤ m.cyclomatic_complexity.getD 0 then 9/10
    else if 15 ≤ m.loc.getD 0 ∨ 10 ≤ m.cyclomatic_complexity.getD 0 then 3/4
    else 3/5
  else if label = "UNKNOWN".data then 1/2
  else 0

/-! ### Helper lemmas -/

theorem amendedScanBlock_eq_scanBlock :
    ∀ (l : List Char) (i : Nat) (count : Int) (a b e : Bool),
      (a = false ∨ b = false) →
      amendedScanBlock l i count a b e = scanBlock l i count a b e := by
  intro l
  induction l with
  | nil => intro _ _ _ _ _ _; rfl
  | cons c rest ih =>
    intro i count a b e hab
    rw [amendedScanBlock, scanBlock]
    cases e with
    | true => exact ih _ _ a b _ hab
    | false =>
      rcases hab with rfl | rfl
      · cases b with
        | false =>
          by_cases hbs : c = '\\'
          · simp [hbs] <;> exact ih _ _ false false _ (Or.inl rfl)
          · by_cases hq : c = '"'
            · simp [hbs, hq] <;> exact ih _ _ true false _ (Or.inr rfl)
            · by_cases hq2 : c = '\''
              · simp [hbs, hq, hq2] <;> exact ih _ _ false true _ (Or.inl rfl)
              · by_cases hl : c = lbrace
                · simp [hbs, hq, hq2, hl] <;> exact ih _ _ false false _ (Or.inl rfl)
                · by_cases hr : c = rbrace
                  · by_cases h1 : count = 1
                    · simp [hr, h1, show ¬rbrace = '\\' by decide,
                        show ¬rbrace = '"' by decide, show ¬rbrace = '\'' by decide,
                        show ¬rbrace = lbrace by decide]
                    · simp [hr, h1, show ¬rbrace = '\\' by decide,
                        show ¬rbrace = '"' by decide, show ¬rbrace = '\'' by decide,
                        show ¬rbrace = lbrace by decide] <;>
                        exact ih _ _ false false _ (Or.inl rfl)
                  · simp [hbs, hq, hq2, hl, hr] <;>
                      exact ih _ _ false false _ (Or.inl rfl)
        | true =>
          by_cases hbs : c = '\\'
          · simp [hbs] <;> exact ih _ _ false true _ (Or.inl rfl)
          · by_cases hq2 : c = '\''
            · simp [hbs, hq2] <;> exact ih _ _ false false _ (Or.inl rfl)
            · simp [hbs, hq2] <;> exact ih _ _ false true _ (Or.inl rfl)
      · cases a with
        | false =>
          by_cases hbs : c = '\\'
          · simp [hbs] <;> exact ih _ _ false false _ (Or.inl rfl)
          · by_cases hq : c = '"'
            · simp [hbs, hq] <;> exact ih _ _ true false _ (Or.inr rfl)
            · by_cases hq2 : c = '\''
              · simp [hbs, hq, hq2] <;> exact ih _ _ false true _ (Or.inl rfl)
              · by_cases hl : c = lbrace
                · simp [hbs, hq, hq2, hl] <;> exact ih _ _ false false _ (Or.inl rfl)
                · by_cases hr : c = rbrace
                  · by_cases h1 : count = 1
                    · simp [hr, h1, show ¬rbrace = '\\' by decide,
                        show ¬rbrace = '"' by decide, show ¬rbrace = '\'' by decide,
                        show ¬rbrace = lbrace by decide]
                    · simp [hr, h1, show ¬rbrace = '\\' by decide,
                        show ¬rbrace = '"' by decide, show ¬rbrace = '\'' by decide,
                        show ¬rbrace = lbrace by decide] <;>
                        exact ih _ _ false false _ (Or.inl rfl)
                  · simp [hbs, hq, hq2, hl, hr] <;>
                      exact ih _ _ false false _ (Or.inl rfl)
        | true =>
          by_cases hbs : c = '\\'
          · simp [hbs] <;> exact ih _ _ true false _ (Or.inr rfl)
          · by_cases hq : c = '"'
            · simp [hbs, hq] <;> exact ih _ _ false false _ (Or.inl rfl)
            · simp [hbs, hq] <;> exact ih _ _ true false _ (Or.inr rfl)

theorem amendedCountLocLines_eq :
    ∀ (lines : List (List Char)) (inML : Bool),
      amendedCountLocLines lines inML = countLocLines lines inML := by
  intro lines
  induction lines with
  | nil => intro _; rfl
  | cons line rest ih =>
    intro inML
    rw [amendedCountLocLines, countLocLines]
    by_cases hcl : containsSub ['*', '/'] (strip line) = true
    · by_cases ho : containsSub ['/', '*'] (strip line) = true
      · cases inML <;> simp [hcl, ho, ih]
      · cases inML <;> simp [hcl, ho, ih]
    · by_cases ho : containsSub ['/', '*'] (strip line) = true
      · cases inML <;> simp [hcl, ho, ih]
      · cases inML <;> simp [hcl, ho, ih]

/-! ### Claim theorems -/

/-- Claim C1: constructing a `ClassDebtDetector` raises `AttributeError`
for every configuration dict, because `__init__` reads `self.timeout` when
building `llm_config` while the assignment of `self.timeout` is commented
out; consequently initializing a `DebtDetectionCoordinator` with the class
detector enabled (the default when `enabled` is absent) always fails. -/
theorem c1_class_detector_init_always_raises :
    (∀ cfg : AgentConfig,
      classDebtDetectorInit cfg = .error (.attributeError "timeout".data))
    ∧ ∀ cfgs : AgentConfigs, cfgs.class_detector.enabled = none →
        initialize_agents cfgs = .error (.attributeError "timeout".data) := by
  constructor
  · intro cfg
    rfl
  · intro cfgs henabled
    unfold initialize_agents
    rw [henabled]
    rfl

/-- Claim C1, witness: the default (empty) configuration leaves `enabled`
absent, and coordinator initialization fails with the `AttributeError`. -/
theorem c1_witness :
    ({} : AgentConfigs).class_detector.enabled = none
    ∧ initialize_agents {} = .error (.attributeError "timeout".data) :=
  ⟨rfl, c1_class_detector_init_always_raises.2 {} rfl⟩

/-- Claim C3, counterexample: on `"{\"}"` the source's `_extract_block`
tracks the escape flag globally, so the backslash hides the quote, no
string span opens, and the block closes at the final brace; under the
claim's wording (escape tracked only inside literal spans) the quote opens
a string span and the scan runs off the end of input. -/
theorem c3_counterexample :
    extract_block [lbrace, '\\', '"', rbrace] 0 =
      some [lbrace, '\\', '"', rbrace]
    ∧ claimed_extract_block [lbrace, '\\', '"', rbrace] 0 = none := by
  constructor
  · decide
  · decide

/-- Claim C3 (amended): block extraction locates the first opening brace
at or after the start position and scans forward with a depth counter,
toggling depth on braces only outside string and character literal spans;
the escape flag is tracked globally — a backslash anywhere causes the
following character to be skipped entirely, for span toggling and depth
counting alike; the substring from the start position through the
depth-zero position is returned, and `None` when the end of input is
reached first. -/
theorem c3_extract_block_amended :
    ∀ (source : List Char) (startPos : Nat),
      extract_block source startPos = amended_extract_block source startPos := by
  intro source startPos
  unfold extract_block amended_extract_block
  cases findCharFrom source lbrace startPos with
  | none => rfl
  | some bracePos =>
    dsimp only
    rw [amendedScanBlock_eq_scanBlock _ _ _ _ _ _ (Or.inl rfl)]

/-- Claim C6, counterexample: on the single line `x */` the source's
`_count_loc` excludes the line (any line containing a block-comment end
token is excluded, even with no open comment span), while the claim's
wording (only lines of a span opened by a start token are excluded) counts
it as code. -/
theorem c6_counterexample :
    count_loc "x */".data = 0 ∧ claimed_count_loc "x */".data = 1 := by
  constructor
  · decide
  · decide

/-- Claim C6 (amended): the line count equals the number of lines after
splitting on newlines, excluding lines blank after trimming, lines fully
consumed by a line comment, and comment-span lines, where the span
tracking is token-containment based: a line containing the block-comment
start token sets the in-comment state (this check precedes the end-token
check), and a line containing the end token anywhere is excluded and
clears the state — even when no span is open. -/
theorem c6_count_loc_amended :
    ∀ code : List Char, count_loc code = amended_count_loc code := by
  intro code
  unfold count_loc amended_count_loc
  rw [amendedCountLocLines_eq]

/-- Claim C10: whenever the primary structural parse accepts the source
(no parse failure), `slice_code` returns an empty standalone-methods list;
standalone method units are produced only by the fallback path, which also
produces the regex-extracted classes. -/
theorem c10_primary_path_no_standalone_methods :
    ∀ (cfg : SlicerConfig) (o : RegexOracle) (source : List Char),
      (∀ nodes : List ClassNode,
        (slice_code cfg o (some nodes) source).methods = [])
      ∧ (slice_code cfg o none source).methods = extract_methods_regex cfg o source
      ∧ (slice_code cfg o none source).classes = extract_classes_regex cfg o source := by
  intro cfg o source
  exact ⟨fun _ => rfl, rfl, rfl⟩

/-- Claim C4: confidence is a deterministic function of (granularity,
label) and the unit's metrics, exactly reproducing the specification's
table on each granularity's label vocabulary; in particular label `4` with
`loc = 20` and `complexity = 12` yields 0.75, not 0.9. -/
theorem c4_confidence_table :
    (∀ (label : List Char) (m : Metrics),
        label ∈ ["0".data, "1".data, "2".data, "UNKNOWN".data] →
        classCalculateConfidence label m = confidenceTable label m)
    ∧ (∀ (label : List Char) (m : Metrics),
        label ∈ ["0".data, "3".data, "4".data, "UNKNOWN".data] →
        methodCalculateConfidence label m = confidenceTable label m)
    ∧ methodCalculateConfidence "4".data
        { loc := some 20, cyclomatic_complexity := some 12 } = 3/4 := by
  refine ⟨?_, ?_, ?_⟩
  · intro label m h
    simp only [List.mem_cons, List.not_mem_nil, or_false] at h
    rcases h with rfl | rfl | rfl | rfl <;> rfl
  · intro label m h
    simp only [List.mem_cons, List.not_mem_nil, or_false] at h
    rcases h with rfl | rfl | rfl | rfl <;> rfl
  · rfl

/-- Claim C4, witness: the class-granularity row for label `1` at concrete
metrics, obtained through the table theorem. -/
theorem c4_witness :
    classCalculateConfidence "1".data { loc := some 600, method_count := some 25 }
      = confidenceTable "1".data { loc := some 600, method_count := some 25 } :=
  c4_confidence_table.1 "1".data
    { loc := some 600, method_count := some 25 } (by decide)

theorem aggregateDebtStep_average :
    ∀ (ds : List DetectionResult) (a : AggregateSummary),
      (ds.foldl aggregateDebtStep a).average_debts_per_file =
        a.average_debts_per_file := by
  intro ds
  induction ds with
  | nil => intro a; rfl
  | cons d rest ih =>
    intro a
    rw [List.foldl_cons, ih]
    unfold aggregateDebtStep
    dsimp only
    split_ifs <;> rfl

theorem aggregateFileStep_fst_average :
    ∀ (acc : AggregateSummary × Nat) (r : GuardianFileResult),
      (aggregateFileStep acc r).1.average_debts_per_file =
        acc.1.average_debts_per_file := by
  intro acc r
  unfold aggregateFileStep
  split
  · rfl
  · dsimp only
    rw [aggregateDebtStep_average]
    split <;> rfl

theorem aggregateFileStep_snd :
    ∀ (acc : AggregateSummary × Nat) (r : GuardianFileResult),
      (aggregateFileStep acc r).2 =
        acc.2 + (if r.status = "completed".data then 1 else 0) := by
  intro acc r
  unfold aggregateFileStep
  by_cases hs : r.status = "completed".data
  · rw [if_neg (by simp [hs]), if_pos hs]
  · rw [if_pos (by simp [hs]), if_neg hs]
    omega

theorem aggregateFileStep_average :
    ∀ (rs : List GuardianFileResult) (acc : AggregateSummary × Nat),
      (rs.foldl aggregateFileStep acc).1.average_debts_per_file =
        acc.1.average_debts_per_file := by
  intro rs
  induction rs with
  | nil => intro acc; rfl
  | cons r rest ih =>
    intro acc
    rw [List.foldl_cons, ih, aggregateFileStep_fst_average]

theorem aggregateFileStep_valid_count :
    ∀ (rs : List GuardianFileResult) (acc : AggregateSummary × Nat),
      (rs.foldl aggregateFileStep acc).2 =
        acc.2 + (rs.filter (fun r => r.status = "completed".data)).length := by
  intro rs
  induction rs with
  | nil => intro acc; simp
  | cons r rest ih =>
    intro acc
    rw [List.foldl_cons, List.filter_cons, ih, aggregateFileStep_snd]
    by_cases hs : r.status = "completed".data
    · rw [if_pos hs, if_pos (by simp [hs])]
      simp only [List.length_cons]
      omega
    · rw [if_neg hs, if_neg (by simp [hs])]
      omega

theorem aggregateFileStep_skips_failed :
    ∀ (rs : List GuardianFileResult) (acc : AggregateSummary × Nat),
      rs.foldl aggregateFileStep acc =
        (rs.filter (fun r => r.status = "completed".data)).foldl
          aggregateFileStep acc := by
  intro rs
  induction rs with
  | nil => intro acc; rfl
  | cons r rest ih =>
    intro acc
    rw [List.foldl_cons, List.filter_cons]
    by_cases hs : r.status = "completed".data
    · rw [if_pos (by simp [hs]), List.foldl_cons]
      exact ih _
    · rw [if_neg (by simp [hs])]
      have hstep : aggregateFileStep acc r = acc := by
        unfold aggregateFileStep
        rw [if_pos (by simp [hs])]
      rw [hstep]
      exact ih _

/-- Claim C9: in the repository-level aggregate, `average_debts_per_file`
is 0 when zero files were successfully analyzed and `total_debts` divided
by the number of successfully analyzed files otherwise; file results whose
analysis failed contribute nothing to any aggregate field. -/
theorem c9_aggregate_average :
    ∀ rs : List GuardianFileResult,
      ((aggregate_results rs).average_debts_per_file =
        if (rs.filter (fun r => r.status = "completed".data)).length = 0 then 0
        else ((aggregate_results rs).total_debts : ℚ) /
          ((rs.filter (fun r => r.status = "completed".data)).length : ℚ))
      ∧ aggregate_results rs =
          aggregate_results (rs.filter (fun r => r.status = "completed".data)) := by
  intro rs
  constructor
  · unfold aggregate_results
    have hv := aggregateFileStep_valid_count rs (aggregateInit, 0)
    rw [Nat.zero_add] at hv
    by_cases hz : (rs.filter (fun r => r.status = "completed".data)).length = 0
    · rw [if_pos hz]
      rw [if_neg (by omega)]
      rw [aggregateFileStep_average]
      rfl
    · rw [if_neg hz]
      rw [if_pos (by omega)]
      dsimp only
      rw [hv]
  · unfold aggregate_results
    rw [aggregateFileStep_skips_failed rs]

theorem extract_method_from_ast_loc :
    ∀ (cfg : SlicerConfig) (o : RegexOracle) (node : MethodNode)
      (source parentClass : List Char) (mi : MethodUnit),
      extract_method_from_ast cfg o node source parentClass = some mi →
      mi.metrics.loc.getD 0 =
        (if cfg.extract_metrics then count_loc mi.code else 0) := by
  intro cfg o node source parentClass mi h
  unfold extract_method_from_ast at h
  split at h
  · simp at h
  · split at h
    · simp at h
    · rw [Option.some.injEq] at h
      subst h
      cases hem : cfg.extract_metrics <;> simp [hem]

theorem extract_class_from_ast_inv :
    ∀ (cfg : SlicerConfig) (o : RegexOracle) (node : ClassNode)
      (source : List Char) (c : ClassUnit),
      extract_class_from_ast cfg o node source = some c →
      count_loc c.code ≤ cfg.max_class_loc
      ∧ ∀ m ∈ c.methods, cfg.min_method_loc ≤ count_loc m.code := by
  intro cfg o node source c h
  unfold extract_class_from_ast at h
  split at h
  · simp at h
  · rename_i classCode heq
    split at h
    · simp at h
    · dsimp only at h
      by_cases hloc : cfg.max_class_loc < count_loc classCode
      · rw [if_pos hloc] at h
        simp at h
      · rw [if_neg hloc] at h
        rw [Option.some.injEq] at h
        subst h
        refine ⟨by dsimp only; omega, ?_⟩
        intro m hm
        dsimp only at hm
        rw [List.mem_filterMap] at hm
        obtain ⟨mn, _, hsome⟩ := hm
        rw [Option.bind_eq_some] at hsome
        obtain ⟨mi, hmi, hif⟩ := hsome
        split at hif
        · rw [Option.some.injEq] at hif
          subst hif
          rename_i hle
          have hl := extract_method_from_ast_loc cfg o mn classCode node.name mi hmi
          rw [hl] at hle
          split at hle
          · exact hle
          · omega
        · simp at hif

theorem extract_methods_regex_loc :
    ∀ (cfg : SlicerConfig) (o : RegexOracle) (source : List Char)
      (m : MethodUnit),
      m ∈ extract_methods_regex cfg o source →
      cfg.min_method_loc ≤ count_loc m.code := by
  intro cfg o source m hm
  unfold extract_methods_regex at hm
  rw [List.mem_filterMap] at hm
  obtain ⟨p, _, hsome⟩ := hm
  split at hsome
  · simp at hsome
  · split at hsome
    · simp at hsome
    · split at hsome
      · simp at hsome
      · dsimp only at hsome
        split at hsome
        · rw [Option.some.injEq] at hsome
          subst hsome
          rename_i hle
          exact hle
        · simp at hsome

theorem extract_classes_regex_inv :
    ∀ (cfg : SlicerConfig) (o : RegexOracle) (source : List Char)
      (c : ClassUnit),
      c ∈ extract_classes_regex cfg o source →
      count_loc c.code ≤ cfg.max_class_loc
      ∧ ∀ m ∈ c.methods, cfg.min_method_loc ≤ count_loc m.code := by
  intro cfg o source c hc
  unfold extract_classes_regex at hc
  rw [List.mem_filterMap] at hc
  obtain ⟨p, _, hsome⟩ := hc
  split at hsome
  · simp at hsome
  · rename_i classCode heq
    split at hsome
    · simp at hsome
    · dsimp only at hsome
      split at hsome
      · rw [Option.some.injEq] at hsome
        subst hsome
        rename_i hle
        exact ⟨hle, fun m hm => extract_methods_regex_loc cfg o classCode m hm⟩
      · simp at hsome

/-- Claim C2: for every source text and slicer configuration (and every
behaviour of the parse and regex oracles), no class unit returned by
`slice_code` has loc greater than `max_class_loc`, and no returned method
unit — standalone or nested inside a returned class — has loc less than
`min_method_loc`, on both the primary AST path and the regex fallback
path. -/
theorem c2_slice_loc_invariants :
    ∀ (cfg : SlicerConfig) (o : RegexOracle) (parsed : Option (List ClassNode))
      (source : List Char),
      (∀ c ∈ (slice_code cfg o parsed source).classes,
        count_loc c.code ≤ cfg.max_class_loc
        ∧ ∀ m ∈ c.methods, cfg.min_method_loc ≤ count_loc m.code)
      ∧ ∀ m ∈ (slice_code cfg o parsed source).methods,
          cfg.min_method_loc ≤ count_loc m.code := by
  intro cfg o parsed source
  cases parsed with
  | some nodes =>
    constructor
    · intro c hc
      have hmem : c ∈ nodes.filterMap
          (fun n => extract_class_from_ast cfg o n source) := hc
      rw [List.mem_filterMap] at hmem
      obtain ⟨n, _, hn⟩ := hmem
      exact extract_class_from_ast_inv cfg o n source c hn
    · intro m hm
      simp [slice_code] at hm
  | none =>
    exact ⟨fun c hc => extract_classes_regex_inv cfg o source c hc,
      fun m hm => extract_methods_regex_loc cfg o source m hm⟩

/-- Oracle for the C2 witness: one fallback class match at position 0,
no method matches. -/
def c2WitnessOracle : RegexOracle :=
  { classHeaderPos := fun _ _ => none
    methodHeaderPos := fun _ _ => none
    classMatches := fun _ => [("A".data, 0)]
    methodMatches := fun _ => [] }

/-- The class unit the fallback path extracts from the two-character
source `{}` under `c2WitnessOracle`. -/
def c2WitnessClass : ClassUnit :=
  { name := "A".data
    code := [lbrace, rbrace]
    methods := []
    metrics := { loc := some 1 } }

/-- Claim C2, witness: the fallback-extracted class of the two-character
source `{}` satisfies the class loc bound. -/
theorem c2_witness :
    count_loc c2WitnessClass.code ≤ ({} : SlicerConfig).max_class_loc :=
  ((c2_slice_loc_invariants {} c2WitnessOracle none [lbrace, rbrace]).1
    c2WitnessClass (by decide)).1

/-- Oracle for the C5 inputs: the class header is found at position 0 of
the source, and every method header at position 0 of the class code. -/
def c5Oracle : RegexOracle :=
  { classHeaderPos := fun _ _ => some 0
    methodHeaderPos := fun _ _ => some 0
    classMatches := fun _ => []
    methodMatches := fun _ => [] }

/-- A class node declaring a single one-line getter. -/
def c5Node : ClassNode :=
  { name := "A".data
    methods := [{ name := "getX".data, parameters := 0 }]
    fields := 0
    modifiers := [] }

/-- Claim C5, counterexample: a class declaring one getter whose extracted
code has loc 1.  With the default `min_method_loc = 3` the getter is
dropped from the retained methods list before accessors are counted, so
the code computes ratio 0; the claim's wording (trivial accessors counted
over ALL declared methods, own loc at most 3) gives ratio 1. -/
theorem c5_counterexample :
    (extract_class_from_ast {} c5Oracle c5Node [lbrace, rbrace]).map
        (fun c => c.metrics.getter_setter_ratio) = some (some 0)
    ∧ claimed_getter_setter_ratio {} c5Oracle c5Node [lbrace, rbrace] = 1 := by
  have h1 : (extract_class_from_ast {} c5Oracle c5Node [lbrace, rbrace]).map
      (fun c => c.metrics.getter_setter_ratio)
      = some (some (((0 : Nat) : ℚ) / ((1 : Nat) : ℚ))) := rfl
  have h2 : claimed_getter_setter_ratio {} c5Oracle c5Node [lbrace, rbrace]
      = ((1 : Nat) : ℚ) / ((1 : Nat) : ℚ) := rfl
  refine ⟨?_, ?_⟩
  · rw [h1]
    norm_num
  · rw [h2]
    norm_num

/-- Claim C5 (amended): for every class extracted on the primary AST path
with metric extraction on, `getter_setter_ratio` equals the number of
trivial accessors among the RETAINED nested method units (those whose code
was extracted and whose loc reaches `min_method_loc`) divided by the count
of all directly declared methods — 0 when that count is 0; accessors
dropped by the method filter are not counted. -/
theorem c5_getter_setter_ratio_amended :
    ∀ (cfg : SlicerConfig) (o : RegexOracle) (node : ClassNode)
      (source : List Char) (c : ClassUnit),
      cfg.extract_metrics = true →
      extract_class_from_ast cfg o node source = some c →
      c.metrics.method_count = some node.methods.length
      ∧ c.metrics.getter_setter_ratio = some
          (if 0 < node.methods.length then
            (count_getters_setters c.methods : ℚ) / (node.methods.length : ℚ)
          else 0) := by
  intro cfg o node source c hem h
  obtain ⟨em, minl, maxl⟩ := cfg
  have hem2 : em = true := hem
  subst hem2
  unfold extract_class_from_ast at h
  split at h
  · simp at h
  · rename_i classCode heq
    split at h
    · simp at h
    · dsimp only at h
      by_cases hloc : maxl < count_loc classCode
      · rw [if_pos hloc] at h
        simp at h
      · rw [if_neg hloc] at h
        rw [Option.some.injEq] at h
        subst h
        exact ⟨rfl, rfl⟩

/-- A class node declaring no methods, for the C5 witness. -/
def c5EmptyNode : ClassNode :=
  { name := "A".data, methods := [], fields := 0, modifiers := [] }

/-- The class unit extracted from `{}` for `c5EmptyNode`. -/
def c5WitnessUnit : ClassUnit :=
  { name := "A".data
    code := [lbrace, rbrace]
    methods := []
    metrics :=
      { loc := some 1
        method_count := some 0
        field_count := some 0
        is_abstract := some false
        getter_setter_ratio := some 0 } }

/-- Claim C5, witness: the amended ratio equation at a concrete class. -/
theorem c5_witness :
    c5WitnessUnit.metrics.method_count = some c5EmptyNode.methods.length
    ∧ c5WitnessUnit.metrics.getter_setter_ratio = some
        (if 0 < c5EmptyNode.methods.length then
          (count_getters_setters c5WitnessUnit.methods : ℚ) /
            (c5EmptyNode.methods.length : ℚ)
        else 0) :=
  c5_getter_setter_ratio_amended {} c5Oracle c5EmptyNode [lbrace, rbrace]
    c5WitnessUnit rfl rfl

/-- Claim C7: when the class detector yields no response for a unit, the
detection returns an `UNKNOWN`/confidence-0 result instead of raising; the
result appears among the pre-filter detections, the pre-filter total
counts that list, the result is removed by the confidence filter under the
default threshold 0.5, and every other unit of the batch whose result is
not `No Smell` is still dispatched and collected. -/
theorem c7_no_response_isolated :
    ∀ (cresp : DetectorResponse ClassUnit) (mresp : DetectorResponse MethodUnit)
      (classes : List ClassUnit) (methods : List MethodUnit) (u : ClassUnit),
      u ∈ classes → cresp u = none →
      (classDetect cresp u).label = "UNKNOWN".data
      ∧ (classDetect cresp u).confidence = 0
      ∧ classDetect cresp u ∈ all_detections (some cresp) (some mresp) classes methods
      ∧ (analyze_file {} (some cresp) (some mresp) classes methods).total_detections
          = (all_detections (some cresp) (some mresp) classes methods).length
      ∧ classDetect cresp u ∉
          (analyze_file {} (some cresp) (some mresp) classes methods).debts
      ∧ ∀ u' ∈ classes, (classDetect cresp u').label ≠ "0".data →
          classDetect cresp u' ∈
            all_detections (some cresp) (some mresp) classes methods := by
  intro cresp mresp classes methods u hu hnone
  have hlabel : (classDetect cresp u).label = "UNKNOWN".data := by
    unfold classDetect
    rw [hnone]
  have hconf : (classDetect cresp u).confidence = 0 := by
    unfold classDetect
    rw [hnone]
  have hmemBatch : ∀ u' ∈ classes, (classDetect cresp u').label ≠ "0".data →
      classDetect cresp u' ∈
        all_detections (some cresp) (some mresp) classes methods := by
    intro u' hu' hne
    unfold all_detections
    rw [List.mem_append]
    left
    rw [List.mem_append]
    left
    dsimp only
    rw [if_pos (List.ne_nil_of_mem hu')]
    unfold detect_class_debts
    rw [List.mem_filter]
    exact ⟨List.mem_map_of_mem _ hu', by simpa using hne⟩
  have hne0 : (classDetect cresp u).label ≠ "0".data := by
    rw [hlabel]
    decide
  refine ⟨hlabel, hconf, hmemBatch u hu hne0, rfl, ?_, hmemBatch⟩
  intro hmem
  have h2 := (List.mem_filter.mp hmem).2
  rw [hconf] at h2
  have h3 : (({} : CoordinatorConfig).min_confidence ≤ (0 : ℚ)) := by
    exact of_decide_eq_true h2
  norm_num [CoordinatorConfig.min_confidence] at h3

/-- A unit and detectors for the C7 witness: the class detector never
responds. -/
def c7Unit : ClassUnit :=
  { name := "A".data, code := "x".data, methods := [], metrics := {} }

/-- The silent class detector for the C7 witness. -/
def c7Cresp : DetectorResponse ClassUnit := fun _ => none

/-- The silent method detector for the C7 witness. -/
def c7Mresp : DetectorResponse MethodUnit := fun _ => none

/-- Claim C7, witness: the no-response behaviour at a concrete batch of
one class unit. -/
theorem c7_witness :
    (classDetect c7Cresp c7Unit).label = "UNKNOWN".data
    ∧ (classDetect c7Cresp c7Unit).confidence = 0
    ∧ classDetect c7Cresp c7Unit ∈
        all_detections (some c7Cresp) (some c7Mresp) [c7Unit] []
    ∧ (analyze_file {} (some c7Cresp) (some c7Mresp) [c7Unit] []).total_detections
        = (all_detections (some c7Cresp) (some c7Mresp) [c7Unit] []).length
    ∧ classDetect c7Cresp c7Unit ∉
        (analyze_file {} (some c7Cresp) (some c7Mresp) [c7Unit] []).debts :=
  have h := c7_no_response_isolated c7Cresp c7Mresp [c7Unit] [] c7Unit
    (by decide) rfl
  ⟨h.1, h.2.1, h.2.2.1, h.2.2.2.1, h.2.2.2.2.1⟩

theorem containsSub_correct :
    ∀ (pat s : List Char), containsSub pat s = true ↔ pat <:+: s := by
  intro pat s
  induction s with
  | nil =>
    rw [containsSub]
    simp [List.isEmpty_iff, List.infix_nil]
  | cons c rest ih =>
    rw [containsSub, Bool.or_eq_true, List.infix_cons_iff]
    constructor
    · rintro (h | h)
      · exact Or.inl (List.isPrefixOf_iff_prefix.mp h)
      · exact Or.inr (ih.mp h)
    · rintro (h | h)
      · exact Or.inl (List.isPrefixOf_iff_prefix.mpr h)
      · exact Or.inr (ih.mpr h)

theorem strip_infix_self : ∀ s : List Char, strip s <:+: s := by
  intro s
  have h1 : s.dropWhile isPySpace <:+ s := List.dropWhile_suffix _
  have h2 : (s.dropWhile isPySpace).reverse.dropWhile isPySpace <:+
      (s.dropWhile isPySpace).reverse := List.dropWhile_suffix _
  have h3 := List.reverse_prefix.mpr h2
  rw [List.reverse_reverse] at h3
  exact h3.isInfix.trans h1.isInfix

theorem dropWhile_head_not :
    ∀ (p : Char → Bool) (l : List Char) (c : Char),
      (l.dropWhile p).head? = some c → p c = false := by
  intro p l
  induction l with
  | nil => intro c h; simp [List.dropWhile] at h
  | cons a rest ih =>
    intro c h
    rw [List.dropWhile_cons] at h
    split at h
    · exact ih c h
    · rename_i hpa
      simp only [List.head?_cons, Option.some.injEq] at h
      subst h
      simpa using hpa

theorem prefix_head_eq :
    ∀ (l₁ l₂ : List Char) (c : Char),
      l₁ <+: l₂ → l₁.head? = some c → l₂.head? = some c := by
  intro l₁ l₂ c h hc
  obtain ⟨t, rfl⟩ := h
  cases l₁ with
  | nil => simp at hc
  | cons a r =>
    simp only [List.head?_cons, Option.some.injEq] at hc
    simp [hc]

theorem strip_head_not_space :
    ∀ (s : List Char) (c : Char),
      (strip s).head? = some c → isPySpace c = false := by
  intro s c hc
  have h2 : ((s.dropWhile isPySpace).reverse.dropWhile isPySpace) <:+
      (s.dropWhile isPySpace).reverse := List.dropWhile_suffix _
  have h3 := List.reverse_prefix.mpr h2
  rw [List.reverse_reverse] at h3
  have h4 := prefix_head_eq _ _ c h3 hc
  exact dropWhile_head_not isPySpace s c h4

theorem strip_getLast_not_space :
    ∀ (s : List Char) (c : Char),
      (strip s).getLast? = some c → isPySpace c = false := by
  intro s c hc
  unfold strip at hc
  rw [List.getLast?_reverse] at hc
  exact dropWhile_head_not isPySpace (s.dropWhile isPySpace).reverse c hc

theorem infix_dropWhile_of_head :
    ∀ (w l : List Char),
      (∀ c, w.head? = some c → isPySpace c = false) →
      w <:+: l → w <:+: l.dropWhile isPySpace := by
  intro w l
  induction l with
  | nil =>
    intro _ h
    rw [List.infix_nil] at h
    subst h
    exact List.nil_infix
  | cons a rest ih =>
    intro hw h
    rw [List.dropWhile_cons]
    split
    · rename_i hpa
      rw [List.infix_cons_iff] at h
      rcases h with hpre | hinf
      · cases w with
        | nil => exact List.nil_infix
        | cons b w' =>
          rw [List.cons_prefix_cons] at hpre
          obtain ⟨rfl, _⟩ := hpre
          have hb := hw b rfl
          rw [hb] at hpa
          cases hpa
      · exact ih hw hinf
    · exact h

theorem infix_rtrim_of_last :
    ∀ (w l : List Char),
      (∀ c, w.getLast? = some c → isPySpace c = false) →
      w <:+: l → w <:+: (l.reverse.dropWhile isPySpace).reverse := by
  intro w l hw h
  have h1 : w.reverse <:+: l.reverse := List.reverse_infix.mpr h
  have h2 : ∀ c, w.reverse.head? = some c → isPySpace c = false := by
    intro c hc
    rw [List.head?_reverse] at hc
    exact hw c hc
  have h3 := infix_dropWhile_of_head w.reverse l.reverse h2 h1
  have h4 := List.reverse_infix.mpr h3
  rw [List.reverse_reverse] at h4
  exact h4

theorem contains_strip_eq :
    ∀ (pat line : List Char),
      (∀ c, pat.head? = some c → isPySpace c = false) →
      (∀ c, pat.getLast? = some c → isPySpace c = false) →
      containsSub pat (strip line) = containsSub pat line := by
  intro pat line hh hl
  cases hb : containsSub pat line with
  | false =>
    cases hb2 : containsSub pat (strip line) with
    | false => rfl
    | true =>
      have h1 := (containsSub_correct pat (strip line)).mp hb2
      have h2 : pat <:+: line := h1.trans (strip_infix_self line)
      have h3 := (containsSub_correct pat line).mpr h2
      rw [hb] at h3
      cases h3
  | true =>
    have h1 := (containsSub_correct pat line).mp hb
    have h2 := infix_dropWhile_of_head pat line hh h1
    have h3 := infix_rtrim_of_last pat (line.dropWhile isPySpace) hl h2
    exact (containsSub_correct pat (strip line)).mpr h3

/-- Claim C8: localization tries the strategies in order — (a) the first
file line containing the unit's trimmed first code line as a substring
gives an exact range with `end_line = start_line + unit line count - 1`
and no approximate flag; (b) otherwise a declaration-header pattern search
gives an approximate range with `end_line = start_line + unit line count`;
(c) otherwise an explicit location-error marker is attached and the result
kept.  Checking the raw file line (the claim's wording) and checking its
stripped text (the code) agree, because the snippet's first line is
already stripped. -/
theorem c8_localize_strategies :
    ∀ (isClass : Bool) (name codeSnippet sourceContent : List Char),
      localize isClass name codeSnippet sourceContent =
        claimed_localize isClass name codeSnippet sourceContent := by
  intro isClass name snippet source
  unfold localize claimed_localize
  by_cases h0 : snippet = [] ∨ source = []
  · rw [if_pos h0, if_pos h0]
  · rw [if_neg h0, if_neg h0]
    dsimp only
    have hpred : ∀ line, containsSub
        (strip ((splitLines (strip snippet)).headD [])) (strip line) =
        containsSub (strip ((splitLines (strip snippet)).headD [])) line := by
      intro line
      exact contains_strip_eq _ line
        (fun c hc => strip_head_not_space _ c hc)
        (fun c hc => strip_getLast_not_space _ c hc)
    simp only [hpred]

end DebtGuardian
